import Mathlib

/-!
Shallow embedding of `ciclo_menstrual.py` (class `MenstrualCycleProcessor`).

Calendar dates are modelled as `Int` (a day count from an arbitrary epoch), so
`date2 - date1` is the Python `(date2 - date1).days` and `date + timedelta(days = k)`
is `date + k`.  Python floats (`avg_cycle_length`, the while-loop bound) are
modelled as `Rat`, the exact real-valued semantics the spec prescribes.
`generate_ical_calendar` returns `Except String _` because the Python code can
raise `ZeroDivisionError` when the float division `months_future * 30 / avg_cycle_length`
is evaluated with a zero denominator.  Calendar events keep the semantically
relevant fields (`dtstart`, `dtend`, `categories`); the random `uid` and the
human-readable summary/description strings are dropped.
-/

/-- The dictionary `{'start': ..., 'end': ..., 'duration': ...}` built by
`identify_periods`.  `end` is a Lean keyword, hence the field name `end_`. -/
structure Period where
  start : Int
  end_ : Int
  duration : Nat
deriving DecidableEq

instance : Inhabited Period := ⟨⟨0, 0, 0⟩⟩

/-- Python `min(list)` on a list of dates (the `[]` case never occurs in the
program: `min` is only applied to a nonempty `current_period`). -/
def listMin : List Int → Int
  | [] => 0
  | a :: as => as.foldl min a

/-- Python `max(list)` on a list of dates (likewise only applied to nonempty lists). -/
def listMax : List Int → Int
  | [] => 0
  | a :: as => as.foldl max a

/-- The period dictionary appended by `identify_periods`:
`{'start': min(current_period), 'end': max(current_period), 'duration': len(current_period)}`. -/
def mkPeriod (current_period : List Int) : Period :=
  { start := listMin current_period
    end_ := listMax current_period
    duration := current_period.length }

/-- The loop body of `identify_periods` from the second date on: `prev` is
`sorted_dates[i-1]`, `current_period` the accumulator.  A gap of strictly more
than 2 days closes the current period and starts a new one; otherwise the date
is appended.  At end of input the (always nonempty) open period is emitted. -/
def identifyAux : List Int → Int → List Int → List Period
  | [], _, current_period => [mkPeriod current_period]
  | date :: rest, prev, current_period =>
    if 2 < date - prev then
      mkPeriod current_period :: identifyAux rest date [date]
    else
      identifyAux rest date (current_period ++ [date])

/-- `identify_periods`: sort the observation dates ascending, then walk them,
splitting on gaps strictly greater than 2 days.  Empty input returns `[]`
(the `self.periods.empty` early return). -/
def identify_periods (dates : List Int) : List Period :=
  match List.insertionSort (· ≤ ·) dates with
  | [] => []
  | d :: rest => identifyAux rest d [d]

/-- A cycle-phase dictionary as built by `calculate_cycle_phases` (and the
shape of the records `generate_ical_calendar` consumes). -/
structure CyclePhase where
  cycle_number : Nat
  period_start : Int
  period_end : Int
  period_duration : Nat
  cycle_length : Int
  ovulation_date : Int
  fertile_window_start : Int
  fertile_window_end : Int
  pms_alert_date : Int
  next_period_date : Int
deriving DecidableEq

instance : Inhabited CyclePhase := ⟨⟨0, 0, 0, 0, 0, 0, 0, 0, 0, 0⟩⟩

/-- `calculate_cycle_phases`: `for i in range(len(periods) - 1)` builds one
phase from `periods[i]` and `periods[i + 1]`. -/
def calculate_cycle_phases (periods : List Period) : List CyclePhase :=
  (List.range (periods.length - 1)).map fun i =>
    let current_period := periods.getD i default
    let next_period := periods.getD (i + 1) default
    let cycle_length := next_period.start - current_period.start
    let ovulation_date := next_period.start - 14
    let fertile_window_start := ovulation_date - 5
    let fertile_window_end := ovulation_date + 1
    let pms_alert_start := next_period.start - 7
    { cycle_number := i + 1
      period_start := current_period.start
      period_end := current_period.end_
      period_duration := current_period.duration
      cycle_length := cycle_length
      ovulation_date := ovulation_date
      fertile_window_start := fertile_window_start
      fertile_window_end := fertile_window_end
      pms_alert_date := pms_alert_start
      next_period_date := next_period.start }

/-- Python `int(x)` on a float: truncation toward zero. -/
def pyInt (q : Rat) : Int := if q < 0 then ⌈q⌉ else ⌊q⌋

/-- A calendar event, keeping `dtstart`, the optional `dtend` and the
`categories` tag of the iCal `Event`s the program builds. -/
structure CalEvent where
  dtstart : Int
  dtend : Option Int
  category : String
deriving DecidableEq

/-- The four historical events added per cycle phase (menstruation with
exclusive end `period_end + 1`, ovulation, fertile window with exclusive end
`fertile_window_end + 1`, and the PMS alert). -/
def historicalEvents (cycle : CyclePhase) : List CalEvent :=
  [ { dtstart := cycle.period_start, dtend := some (cycle.period_end + 1),
      category := "MENSTRUATION" },
    { dtstart := cycle.ovulation_date, dtend := none,
      category := "OVULATION" },
    { dtstart := cycle.fertile_window_start, dtend := some (cycle.fertile_window_end + 1),
      category := "FERTILITY" },
    { dtstart := cycle.pms_alert_date, dtend := none,
      category := "PMS_ALERT" } ]

/-- One iteration of the future-projection loop: the predicted period event is
always emitted (`period_end = current_date + duration`, `dtend = period_end + 1`);
predicted ovulation and PMS events only when strictly after `today`
(`datetime.now().date()`). -/
def futureEvents (today : Int) (period_duration : Nat) (current_date : Int) : List CalEvent :=
  ({ dtstart := current_date, dtend := some (current_date + period_duration + 1),
     category := "MENSTRUATION_PREDICTED" } : CalEvent) ::
  ((if today < current_date - 14 then
      [({ dtstart := current_date - 14, dtend := none,
          category := "OVULATION_PREDICTED" } : CalEvent)]
    else []) ++
   (if today < current_date - 7 then
      [({ dtstart := current_date - 7, dtend := none,
          category := "PMS_ALERT_PREDICTED" } : CalEvent)]
    else []))

/-- `avg_cycle_length = sum(c['cycle_length'] for c in cycle_phases) / len(cycle_phases)`:
an exact (untruncated) rational mean. -/
def avgCycleLength (cycle_phases : List CyclePhase) : Rat :=
  ((cycle_phases.map CyclePhase.cycle_length).sum : Rat) / (cycle_phases.length : Rat)

/-- `max(cycle_phases, key=lambda x: x['period_start'])`: Python `max` keeps
the first element among ties, replacing only on a strictly larger key. -/
def lastPeriod (c : CyclePhase) (cs : List CyclePhase) : CyclePhase :=
  cs.foldl (fun acc x => if acc.period_start < x.period_start then x else acc) c

/-- `lastPeriod` lifted to a possibly empty phase list (the program only
evaluates it on nonempty lists). -/
def lastPeriodOf : List CyclePhase → CyclePhase
  | [] => default
  | c :: cs => lastPeriod c cs

/-- The `while future_cycles < months_future * 30 / avg_cycle_length` loop.
`bound` is that (rational) right-hand side; each iteration emits the future
events at `current_date`, then advances `current_date` by
`int(avg_cycle_length)` days and `future_cycles` by one. -/
def forecastLoop (today : Int) (avg : Rat) (dur : Nat) (bound : Rat)
    (future_cycles : Nat) (current_date : Int) : List CalEvent :=
  if h : (future_cycles : Rat) < bound then
    futureEvents today dur current_date ++
      forecastLoop today avg dur bound (future_cycles + 1) (current_date + pyInt avg)
  else []
termination_by (⌈bound⌉ - future_cycles).toNat
decreasing_by
  have h1 : (future_cycles : Int) < ⌈bound⌉ := by
    refine Int.lt_ceil.mpr ?_
    exact_mod_cast h
  omega

/-- `generate_ical_calendar`: historical events for every phase, then (when
`cycle_phases` is nonempty) the future projection anchored at the last known
phase's `next_period_date`.  When `avg_cycle_length` is exactly zero the first
evaluation of the loop bound raises `ZeroDivisionError` in Python, modelled as
`Except.error`. -/
def generate_ical_calendar (today : Int) (cycle_phases : List CyclePhase)
    (months_future : Nat := 6) : Except String (List CalEvent) :=
  let historical := (cycle_phases.map historicalEvents).flatten
  match cycle_phases with
  | [] => Except.ok historical
  | c :: cs =>
    let avg_cycle_length := avgCycleLength (c :: cs)
    if avg_cycle_length = 0 then
      Except.error "ZeroDivisionError"
    else
      let last_period := lastPeriod c cs
      Except.ok (historical ++
        forecastLoop today avg_cycle_length last_period.period_duration
          (((months_future * 30 : Nat) : Rat) / avg_cycle_length)
          0 last_period.next_period_date)

/-- The predicted-menstruation events of a `generate_ical_calendar` result
(empty when the call raised). -/
def predictedPeriodEvents (r : Except String (List CalEvent)) : List CalEvent :=
  match r with
  | Except.ok evs => evs.filter (fun e => e.category == "MENSTRUATION_PREDICTED")
  | Except.error _ => []

/-- The start dates of the predicted-menstruation events, in emission order. -/
def predictedStarts (r : Except String (List CalEvent)) : List Int :=
  (predictedPeriodEvents r).map CalEvent.dtstart

/-- The figures `print_summary` prints when it has data. -/
structure CycleSummary where
  total_cycles : Nat
  avg_cycle : Rat
  avg_period : Rat
  last_period_start : Int
  next_predicted : Int
deriving DecidableEq

/-- `print_summary`: `none` models the early `print("No hay datos...")` /
`return` branch on empty `cycle_data`; otherwise the printed statistics,
with `next_predicted = last['next_period_date'] + timedelta(days=int(avg_cycle))`. -/
def print_summary (cycle_data : List CyclePhase) : Option CycleSummary :=
  match cycle_data with
  | [] => none
  | c :: cs =>
    let avg_cycle := avgCycleLength (c :: cs)
    let avg_period : Rat :=
      (((c :: cs).map (fun x => (x.period_duration : Int))).sum : Rat) / ((c :: cs).length : Rat)
    let last := lastPeriod c cs
    some { total_cycles := (c :: cs).length
           avg_cycle := avg_cycle
           avg_period := avg_period
           last_period_start := last.period_start
           next_predicted := last.next_period_date + pyInt avg_cycle }

/-- Example phase: cycle of 29 days ending with a next period on day 29. -/
def cpA : CyclePhase :=
  { cycle_number := 1, period_start := 0, period_end := 3, period_duration := 4,
    cycle_length := 29, ovulation_date := 15, fertile_window_start := 10,
    fertile_window_end := 16, pms_alert_date := 22, next_period_date := 29 }

/-- Example phase: cycle of 30 days following `cpA`. -/
def cpB : CyclePhase :=
  { cycle_number := 2, period_start := 29, period_end := 32, period_duration := 4,
    cycle_length := 30, ovulation_date := 45, fertile_window_start := 40,
    fertile_window_end := 46, pms_alert_date := 52, next_period_date := 59 }

/-- Example phase: a single historical cycle of exactly 28 days. -/
def cp28 : CyclePhase :=
  { cycle_number := 1, period_start := 1, period_end := 4, period_duration := 4,
    cycle_length := 28, ovulation_date := 15, fertile_window_start := 10,
    fertile_window_end := 16, pms_alert_date := 22, next_period_date := 29 }

/-- Degenerate phase: two periods starting the same day give `cycle_length = 0`. -/
def cpZero : CyclePhase :=
  { cycle_number := 1, period_start := 5, period_end := 5, period_duration := 1,
    cycle_length := 0, ovulation_date := -9, fertile_window_start := -14,
    fertile_window_end := -8, pms_alert_date := -2, next_period_date := 5 }

/-! ### Forecast loop characterisation -/

lemma futureEvents_filter (today : Int) (dur : Nat) (cd : Int) :
    (futureEvents today dur cd).filter (fun e => e.category == "MENSTRUATION_PREDICTED")
      = [{ dtstart := cd, dtend := some (cd + dur + 1),
           category := "MENSTRUATION_PREDICTED" }] := by
  unfold futureEvents
  split <;> split <;> simp [List.filter_cons, List.filter_append]

lemma forecastLoop_predicted (today : Int) (avg : Rat) (dur : Nat) :
    ∀ (n : Nat) (bound : Rat) (fc : Nat) (cd : Int), (⌈bound⌉ - (fc : Int)).toNat = n →
    (forecastLoop today avg dur bound fc cd).filter
        (fun e => e.category == "MENSTRUATION_PREDICTED")
      = (List.range n).map (fun k =>
          { dtstart := cd + k * pyInt avg, dtend := some (cd + k * pyInt avg + dur + 1),
            category := "MENSTRUATION_PREDICTED" }) := by
  intro n
  induction n with
  | zero =>
    intro bound fc cd hn
    rw [forecastLoop, dif_neg, List.filter_nil, List.range_zero, List.map_nil]
    intro hlt
    have hc : (fc : Int) < ⌈bound⌉ := Int.lt_ceil.mpr (by exact_mod_cast hlt)
    omega
  | succ n ih =>
    intro bound fc cd hn
    have hc : (fc : Int) < ⌈bound⌉ := by omega
    have hlt : ((fc : Nat) : Rat) < bound := by exact_mod_cast Int.lt_ceil.mp hc
    rw [forecastLoop, dif_pos hlt, List.filter_append, futureEvents_filter,
      ih bound (fc + 1) (cd + pyInt avg) (by push_cast; omega)]
    rw [List.range_succ_eq_map, List.map_cons, List.map_map]
    simp only [List.singleton_append, Nat.cast_zero, zero_mul, add_zero]
    refine congrArg₂ _ rfl ?_
    refine List.map_congr_left ?_
    intro k _
    simp only [Function.comp_apply, Nat.cast_succ]
    have harith : cd + pyInt avg + (k : Int) * pyInt avg
        = cd + ((k : Int) + 1) * pyInt avg := by ring
    rw [harith]

lemma historicalEvents_filter (cycle : CyclePhase) :
    (historicalEvents cycle).filter (fun e => e.category == "MENSTRUATION_PREDICTED") = [] := by
  simp [historicalEvents]

lemma historical_flatten_filter (phases : List CyclePhase) :
    ((phases.map historicalEvents).flatten).filter
        (fun e => e.category == "MENSTRUATION_PREDICTED") = [] := by
  induction phases with
  | nil => simp
  | cons c cs ih => simp [List.filter_append, historicalEvents_filter, ih]

/-- The predicted-menstruation events of `generate_ical_calendar` on a nonempty
history with nonzero average: one event per loop iteration, the `k`-th starting
at the anchor advanced `k` times by `int(avg_cycle_length)` days. -/
lemma generate_predicted (today : Int) (m : Nat) (c : CyclePhase) (cs : List CyclePhase)
    (h : avgCycleLength (c :: cs) ≠ 0) :
    predictedPeriodEvents (generate_ical_calendar today (c :: cs) m)
      = (List.range ((⌈((m * 30 : Nat) : Rat) / avgCycleLength (c :: cs)⌉).toNat)).map
          (fun k =>
            { dtstart := (lastPeriod c cs).next_period_date
                + k * pyInt (avgCycleLength (c :: cs)),
              dtend := some ((lastPeriod c cs).next_period_date
                + k * pyInt (avgCycleLength (c :: cs))
                + (lastPeriod c cs).period_duration + 1),
              category := "MENSTRUATION_PREDICTED" }) := by
  rw [generate_ical_calendar]
  simp only [if_neg h]
  rw [predictedPeriodEvents, List.filter_append, historical_flatten_filter,
    List.nil_append]
  exact forecastLoop_predicted today (avgCycleLength (c :: cs))
    (lastPeriod c cs).period_duration _ _ _ _ (by omega)

lemma avgCycleLength_cpAB : avgCycleLength [cpA, cpB] = 59 / 2 := by
  norm_num [avgCycleLength, cpA, cpB]

lemma predictedStarts_cpAB :
    predictedStarts (generate_ical_calendar 0 [cpA, cpB] 6)
      = [59, 88, 117, 146, 175, 204, 233] := by
  rw [predictedStarts, generate_predicted 0 6 cpA [cpB] (by rw [avgCycleLength_cpAB]; norm_num),
    avgCycleLength_cpAB]
  have hceil : ⌈((6 * 30 : Nat) : Rat) / (59 / 2)⌉ = 7 := by
    rw [Int.ceil_eq_iff] <;> norm_num
  rw [hceil]
  have hpy : pyInt (59 / 2) = 29 := by norm_num [pyInt]
  rw [hpy]
  simp [lastPeriod, cpA, cpB, List.range_succ]

lemma avgCycleLength_cp28 : avgCycleLength [cp28] = 28 := by
  norm_num [avgCycleLength, cp28]

lemma predictedEvents_cp28 :
    predictedPeriodEvents (generate_ical_calendar 0 [cp28] 1)
      = [{ dtstart := 29, dtend := some 34, category := "MENSTRUATION_PREDICTED" },
         { dtstart := 57, dtend := some 62, category := "MENSTRUATION_PREDICTED" }] := by
  rw [generate_predicted 0 1 cp28 [] (by rw [avgCycleLength_cp28]; norm_num),
    avgCycleLength_cp28]
  have hceil : ⌈((1 * 30 : Nat) : Rat) / 28⌉ = 2 := by
    rw [Int.ceil_eq_iff] <;> norm_num
  rw [hceil]
  have hpy : pyInt 28 = 28 := by norm_num [pyInt]
  rw [hpy]
  simp [lastPeriod, List.range_succ, cp28]

/-! ### Claims about the Forecast Projector -/

/-- C2 (counterexample): with historical cycle lengths 29 and 30 the mean is
29.5; the claim predicts anchors advancing by `round(29.5) = 30` days, so the
second predicted start would be 59 + 30 = 89, but the code advances by
`int(29.5) = 29` days and emits 88. -/
theorem forecast_anchor_round_cex :
    (predictedStarts (generate_ical_calendar 0 [cpA, cpB] 6)).take 2 = [59, 88] ∧
    round (avgCycleLength [cpA, cpB]) = 30 ∧ (59 : Int) + 30 ≠ 88 := by
  refine ⟨?_, ?_, by decide⟩
  · rw [predictedStarts_cpAB]
    rfl
  · rw [avgCycleLength_cpAB]
    norm_num [round_eq]

/-- C2 (amended): the average cycle length is the untruncated rational mean of
the historical cycle lengths, and on every iteration the projection anchor
advances by `int(avg_cycle_length)` whole days — truncation toward zero, not
rounding to nearest; truncation is applied only at the day-increment, never
during the averaging. -/
theorem forecast_anchor_advance_spec (today : Int) (m : Nat) (c : CyclePhase)
    (cs : List CyclePhase) (h : avgCycleLength (c :: cs) ≠ 0) :
    predictedStarts (generate_ical_calendar today (c :: cs) m)
      = (List.range ((⌈((m * 30 : Nat) : Rat) / avgCycleLength (c :: cs)⌉).toNat)).map
          (fun k : Nat => (lastPeriod c cs).next_period_date
            + (k : Int) * pyInt (avgCycleLength (c :: cs))) := by
  rw [predictedStarts, generate_predicted today m c cs h, List.map_map]
  rfl

/-- Witness for C2's amended theorem at the concrete two-phase history. -/
theorem forecast_anchor_advance_spec_witness :
    avgCycleLength [cpA, cpB] ≠ 0 ∧
    predictedStarts (generate_ical_calendar 0 [cpA, cpB] 6)
      = (List.range ((⌈((6 * 30 : Nat) : Rat) / avgCycleLength [cpA, cpB]⌉).toNat)).map
          (fun k : Nat => (lastPeriod cpA [cpB]).next_period_date
            + (k : Int) * pyInt (avgCycleLength [cpA, cpB])) :=
  ⟨by rw [avgCycleLength_cpAB]; norm_num,
   forecast_anchor_advance_spec 0 6 cpA [cpB] (by rw [avgCycleLength_cpAB]; norm_num)⟩

/-- C3 (counterexample): with a single historical period of duration 4, every
predicted period event spans 5 inclusive calendar days (exclusive end minus
start is 5), not 4 as the claim states. -/
theorem forecast_event_span_cex :
    ((predictedPeriodEvents (generate_ical_calendar 0 [cp28] 1)).map
        (fun e => e.dtend.getD 0 - e.dtstart)) = [5, 5] ∧
    cp28.period_duration = 4 := by
  rw [predictedEvents_cp28]
  exact ⟨rfl, rfl⟩

/-- C3 (amended): every predicted period event has exclusive end minus start
equal to the most recent historical period's duration plus one (the code sets
`period_end = start + duration` and then `dtend = period_end + 1`). -/
theorem forecast_event_span_spec (today : Int) (m : Nat) (phases : List CyclePhase) :
    ∀ e ∈ predictedPeriodEvents (generate_ical_calendar today phases m),
      e.dtend = some (e.dtstart + (lastPeriodOf phases).period_duration + 1) := by
  match phases with
  | [] =>
    intro e he
    rw [generate_ical_calendar] at he
    simp [predictedPeriodEvents] at he
  | c :: cs =>
    by_cases h : avgCycleLength (c :: cs) = 0
    · intro e he
      rw [generate_ical_calendar] at he
      simp only [if_pos h] at he
      simp [predictedPeriodEvents] at he
    · intro e he
      rw [generate_predicted today m c cs h] at he
      obtain ⟨k, _, rfl⟩ := List.mem_map.mp he
      rfl

/-- Witness for C3's amended theorem at the single-phase history. -/
theorem forecast_event_span_spec_witness :
    (⟨29, some 34, "MENSTRUATION_PREDICTED"⟩ : CalEvent)
        ∈ predictedPeriodEvents (generate_ical_calendar 0 [cp28] 1) ∧
    (some (34 : Int) : Option Int)
        = some (29 + ((lastPeriodOf [cp28]).period_duration : Int) + 1) := by
  have hmem : (⟨29, some 34, "MENSTRUATION_PREDICTED"⟩ : CalEvent)
        ∈ predictedPeriodEvents (generate_ical_calendar 0 [cp28] 1) := by
    rw [predictedEvents_cp28]
    exact List.mem_cons_self _ _
  exact ⟨hmem, forecast_event_span_spec 0 1 [cp28] _ hmem⟩

/-- C4: on a nonempty history with positive average cycle length the projector
emits exactly `ceil(months_future * 30 / avg_cycle_length)` predicted periods. -/
theorem forecast_count_eq_ceil (today : Int) (m : Nat) (c : CyclePhase)
    (cs : List CyclePhase) (h : 0 < avgCycleLength (c :: cs)) :
    ((predictedStarts (generate_ical_calendar today (c :: cs) m)).length : Int)
      = ⌈((m * 30 : Nat) : Rat) / avgCycleLength (c :: cs)⌉ := by
  rw [forecast_anchor_advance_spec today m c cs (ne_of_gt h), List.length_map,
    List.length_range]
  have hb : (0 : Rat) ≤ ((m * 30 : Nat) : Rat) / avgCycleLength (c :: cs) :=
    div_nonneg (by positivity) (le_of_lt h)
  have hc : (0 : Int) ≤ ⌈((m * 30 : Nat) : Rat) / avgCycleLength (c :: cs)⌉ :=
    Int.ceil_nonneg hb
  omega

/-- Witness for C4: a single 28-day cycle with a 1-month horizon emits exactly
`ceil(30 / 28) = 2` predicted periods, spaced 28 days apart, the first at the
known next-period date (day 29). -/
theorem forecast_count_eq_ceil_witness :
    (0 : Rat) < avgCycleLength [cp28] ∧
    ((predictedStarts (generate_ical_calendar 0 [cp28] 1)).length : Int)
      = ⌈((1 * 30 : Nat) : Rat) / avgCycleLength [cp28]⌉ ∧
    predictedStarts (generate_ical_calendar 0 [cp28] 1) = [29, 57] ∧
    cp28.next_period_date = 29 := by
  refine ⟨by rw [avgCycleLength_cp28]; norm_num,
    forecast_count_eq_ceil 0 1 cp28 [] (by rw [avgCycleLength_cp28]; norm_num),
    ?_, rfl⟩
  rw [predictedStarts, predictedEvents_cp28]
  rfl

/-- C9: the code contains no guard on the degenerate average.  With a single
phase of `cycle_length = 0` the average is exactly zero and the first
evaluation of the loop bound `months_future * 30 / avg_cycle_length` divides
by zero — Python raises `ZeroDivisionError` instead of degrading to a
"cannot forecast" result. -/
theorem forecast_zero_avg_division_error :
    avgCycleLength [cpZero] = 0 ∧
    generate_ical_calendar 0 [cpZero] 6 = Except.error "ZeroDivisionError" := by
  have h : avgCycleLength [cpZero] = 0 := by norm_num [avgCycleLength, cpZero]
  refine ⟨h, ?_⟩
  rw [generate_ical_calendar]
  simp only [if_pos h]

/-! ### Sorted-list helpers for the Period Segmenter -/

lemma foldl_min_of_le (as : List Int) : ∀ a : Int, (∀ x ∈ as, a ≤ x) → as.foldl min a = a := by
  induction as with
  | nil => intro a _; rfl
  | cons b bs ih =>
    intro a h
    have hab : a ≤ b := h b (List.mem_cons_self b bs)
    rw [List.foldl_cons, min_eq_left hab]
    exact ih a fun x hx => h x (List.mem_cons_of_mem b hx)

lemma listMin_sorted (a : Int) (as : List Int) (h : (a :: as).Sorted (· ≤ ·)) :
    listMin (a :: as) = a := by
  rw [listMin]
  exact foldl_min_of_le as a (List.sorted_cons.mp h).1

lemma foldl_max_getLast (as : List Int) :
    ∀ a : Int, (a :: as).Sorted (· ≤ ·) → as.foldl max a = (a :: as).getLast (by simp) := by
  induction as with
  | nil => intro a _; rfl
  | cons b bs ih =>
    intro a h
    have hab : a ≤ b := (List.sorted_cons.mp h).1 b (List.mem_cons_self b bs)
    rw [List.foldl_cons, max_eq_right hab, List.getLast_cons (by simp)]
    exact ih b (List.sorted_cons.mp h).2

lemma listMax_sorted (l : List Int) (m : Int) (hs : l.Sorted (· ≤ ·))
    (hl : l.getLast? = some m) : listMax l = m := by
  match l with
  | [] => simp at hl
  | a :: as =>
    rw [listMax, foldl_max_getLast as a hs]
    rw [List.getLast?_eq_getLast _ (by simp)] at hl
    exact Option.some_injective _ hl

lemma sorted_le_getLast : ∀ (l : List Int) (m : Int), l.Sorted (· ≤ ·) →
    l.getLast? = some m → ∀ x ∈ l, x ≤ m
  | [], m, _, hl => by simp at hl
  | [a], m, _, hl => by
    simp only [List.getLast?_singleton, Option.some_inj] at hl
    subst hl
    intro x hx
    simp only [List.mem_singleton] at hx
    omega
  | a :: b :: bs, m, hs, hl => by
    have hl' : (b :: bs).getLast? = some m := by
      rw [← hl, List.getLast?_cons_cons]
    have ht := sorted_le_getLast (b :: bs) m (List.sorted_cons.mp hs).2 hl'
    intro x hx
    rcases List.mem_cons.mp hx with rfl | hx'
    · exact le_trans ((List.sorted_cons.mp hs).1 b (by simp)) (ht b (by simp))
    · exact ht x hx'

lemma listMin_le_listMax (l : List Int) (m : Int) (hne : l ≠ [])
    (hs : l.Sorted (· ≤ ·)) (hl : l.getLast? = some m) : listMin l ≤ listMax l := by
  match l with
  | [] => exact absurd rfl hne
  | a :: as =>
    rw [listMin_sorted a as hs, listMax_sorted (a :: as) m hs hl]
    exact sorted_le_getLast (a :: as) m hs hl a (by simp)

/-- Walking a sorted tail with a sorted, nonempty accumulator whose last
element is `prev`, the emitted periods have their start at `min(current_period)`,
satisfy `start ≤ end`, are separated by gaps strictly greater than 2 days, and
their durations sum to the number of dates folded in (accumulator plus tail). -/
lemma identifyAux_spec :
    ∀ (rest : List Int) (prev : Int) (cur : List Int),
      cur ≠ [] → cur.Sorted (· ≤ ·) → cur.getLast? = some prev →
      (prev :: rest).Sorted (· ≤ ·) →
      (identifyAux rest prev cur).head?.map Period.start = some (listMin cur) ∧
      (∀ p ∈ identifyAux rest prev cur, p.start ≤ p.end_) ∧
      List.Chain' (fun p q => p.end_ + 2 < q.start) (identifyAux rest prev cur) ∧
      ((identifyAux rest prev cur).map Period.duration).sum = cur.length + rest.length := by
  intro rest
  induction rest with
  | nil =>
    intro prev cur hne hs hlast _
    refine ⟨rfl, ?_, List.chain'_singleton _, by simp [identifyAux, mkPeriod]⟩
    intro p hp
    rw [identifyAux, List.mem_singleton] at hp
    subst hp
    exact listMin_le_listMax cur prev hne hs hlast
  | cons date rest' ih =>
    intro prev cur hne hs hlast hsrt
    have hprevdate : prev ≤ date := (List.sorted_cons.mp hsrt).1 date (by simp)
    have hsrt' : (date :: rest').Sorted (· ≤ ·) := (List.sorted_cons.mp hsrt).2
    rw [identifyAux]
    by_cases hgap : 2 < date - prev
    · rw [if_pos hgap]
      obtain ⟨ihhead, ihall, ihchain, ihsum⟩ :=
        ih date [date] (by simp) (List.sorted_singleton date) (by simp) hsrt'
      refine ⟨?_, ?_, ?_, ?_⟩
      · rfl
      · intro p hp
        rcases List.mem_cons.mp hp with rfl | hp'
        · exact listMin_le_listMax cur prev hne hs hlast
        · exact ihall p hp'
      · rw [List.chain'_cons']
        refine ⟨?_, ihchain⟩
        intro q hq
        have hqstart : q.start = date := by
          cases hh : (identifyAux rest' date [date]).head? with
          | none => rw [hh] at hq; simp at hq
          | some q' =>
            rw [hh] at hq ihhead
            simp only [Option.map_some', Option.some_inj] at ihhead
            simp only [Option.mem_def, Option.some_inj] at hq
            subst hq
            rw [ihhead, listMin_sorted date [] (List.sorted_singleton date)]
        have hend : (mkPeriod cur).end_ = prev := by
          rw [mkPeriod]
          exact listMax_sorted cur prev hs hlast
        rw [hqstart, hend]
        omega
      · simp only [List.map_cons, List.sum_cons, ihsum, mkPeriod, List.length_cons,
          List.length_nil, List.length_append]
        omega
    · rw [if_neg hgap]
      have hnew : (cur ++ [date]).Sorted (· ≤ ·) := by
        refine List.pairwise_append.mpr ⟨hs, List.sorted_singleton date, ?_⟩
        intro x hx y hy
        rw [List.mem_singleton] at hy
        subst hy
        exact le_trans (sorted_le_getLast cur prev hs hlast x hx) hprevdate
      have hlast' : (cur ++ [date]).getLast? = some date := List.getLast?_concat _
      obtain ⟨ihhead, ihall, ihchain, ihsum⟩ :=
        ih date (cur ++ [date]) (by simp) hnew hlast' hsrt'
      refine ⟨?_, ihall, ihchain, ?_⟩
      · rw [ihhead]
        match cur, hne with
        | a :: as, _ =>
          rw [List.cons_append, listMin_sorted a as hs,
            listMin_sorted a (as ++ [date]) (by rw [← List.cons_append]; exact hnew)]
      · rw [ihsum]
        simp only [List.length_append, List.length_cons, List.length_nil]
        omega

/-- The Segmenter's output on arbitrary input: every period has `start ≤ end`,
consecutive periods are separated by gaps strictly greater than 2 days, and the
durations sum to the number of observations (duplicates included). -/
lemma identify_periods_spec (dates : List Int) :
    (∀ p ∈ identify_periods dates, p.start ≤ p.end_) ∧
    List.Chain' (fun p q => p.end_ + 2 < q.start) (identify_periods dates) ∧
    ((identify_periods dates).map Period.duration).sum = dates.length := by
  have hperm : List.Perm (List.insertionSort (· ≤ ·) dates) dates :=
    List.perm_insertionSort _ dates
  have hsorted := List.sorted_insertionSort (· ≤ ·) dates
  rw [identify_periods]
  cases hs : List.insertionSort (· ≤ ·) dates with
  | nil =>
    rw [hs] at hperm
    refine ⟨by simp, by simp, ?_⟩
    simpa using hperm.length_eq
  | cons d rest =>
    rw [hs] at hperm hsorted
    obtain ⟨-, hall, hchain, hsum⟩ :=
      identifyAux_spec rest d [d] (by simp) (List.sorted_singleton d) (by simp) hsorted
    refine ⟨hall, hchain, ?_⟩
    rw [hsum]
    have hlen := hperm.length_eq
    simp only [List.length_cons, List.length_nil] at hlen ⊢
    omega

/-! ### Claims about the Period Segmenter and Cycle Phase Calculator -/

/-- C10: every Period satisfies `start ≤ end`; consecutive periods are
separated by strictly more than 2 days (hence disjoint and strictly ordered by
start); and every cycle length the Calculator derives from Segmenter output is
at least 3 days. -/
theorem segmenter_invariants (dates : List Int) :
    (∀ p ∈ identify_periods dates, p.start ≤ p.end_) ∧
    List.Chain' (fun p q => p.end_ + 2 < q.start) (identify_periods dates) ∧
    List.Chain' (fun p q => p.start < q.start) (identify_periods dates) ∧
    (∀ cp ∈ calculate_cycle_phases (identify_periods dates), 3 ≤ cp.cycle_length) := by
  obtain ⟨hall, hchain, -⟩ := identify_periods_spec dates
  have hget := List.chain'_iff_get.mp hchain
  refine ⟨hall, hchain, ?_, ?_⟩
  · rw [List.chain'_iff_get]
    intro i h
    have h1 := hget i h
    have h2 := hall _ (List.get_mem (identify_periods dates) i (by omega))
    omega
  · intro cp hcp
    simp only [calculate_cycle_phases, List.mem_map, List.mem_range] at hcp
    obtain ⟨i, hi, rfl⟩ := hcp
    have hilen : i < (identify_periods dates).length := by omega
    have hi1len : i + 1 < (identify_periods dates).length := by omega
    have hD1 : (identify_periods dates).getD i default
        = (identify_periods dates).get ⟨i, hilen⟩ := by
      simp [List.getD_eq_getElem?_getD, List.getElem?_eq_getElem hilen, List.get_eq_getElem]
    have hD2 : (identify_periods dates).getD (i + 1) default
        = (identify_periods dates).get ⟨i + 1, hi1len⟩ := by
      simp [List.getD_eq_getElem?_getD, List.getElem?_eq_getElem hi1len, List.get_eq_getElem]
    have h1 := hget i (by omega)
    have h2 := hall _ (List.get_mem (identify_periods dates) i hilen)
    dsimp only
    rw [hD1, hD2]
    omega

/-- Witness for C10 at a concrete observation set with two maximal runs. -/
theorem segmenter_invariants_witness :
    ((⟨0, 1, 2⟩ : Period) ∈ identify_periods [0, 1, 10, 11]) ∧
    (⟨0, 1, 2⟩ : Period).start ≤ (⟨0, 1, 2⟩ : Period).end_ ∧
    ((⟨1, 0, 1, 2, 10, -4, -9, -3, 3, 10⟩ : CyclePhase)
        ∈ calculate_cycle_phases (identify_periods [0, 1, 10, 11])) ∧
    (3 : Int) ≤ (⟨1, 0, 1, 2, 10, -4, -9, -3, 3, 10⟩ : CyclePhase).cycle_length := by
  have h1 : (⟨0, 1, 2⟩ : Period) ∈ identify_periods [0, 1, 10, 11] := by decide
  have h2 : (⟨1, 0, 1, 2, 10, -4, -9, -3, 3, 10⟩ : CyclePhase)
      ∈ calculate_cycle_phases (identify_periods [0, 1, 10, 11]) := by decide
  exact ⟨h1, (segmenter_invariants [0, 1, 10, 11]).1 _ h1, h2,
    (segmenter_invariants [0, 1, 10, 11]).2.2.2 _ h2⟩

/-- C1 (counterexample): two observations on the same day are folded into one
period of duration 2, while the number of distinct observation-dates is 1 —
duplicate dates on the same day do add to the count. -/
theorem identify_periods_duplicate_date_cex :
    identify_periods [0, 0] = [{ start := 0, end_ := 0, duration := 2 }] ∧
    [(0 : Int), 0].dedup.length = 1 := by
  constructor <;> decide

/-- C1 (amended): the duration of each Period equals the number of
observations folded into it counted with multiplicity (so the durations sum to
the total observation count), and duration may still differ from
`end - start + 1` (the input `[0, 2]` gives one period spanning 3 calendar days
with duration 2). -/
theorem identify_periods_duration_spec :
    (∀ dates : List Int, ((identify_periods dates).map Period.duration).sum = dates.length) ∧
    identify_periods [0, 2] = [{ start := 0, end_ := 2, duration := 2 }] := by
  refine ⟨fun dates => (identify_periods_spec dates).2.2, ?_⟩
  decide

/-- C7: the gap threshold is exclusive — empty input yields no periods, a
single observation yields one period of duration 1, a gap of exactly 2 days
does not split, and a gap of exactly 3 days does. -/
theorem gap_threshold_exclusive :
    identify_periods ([] : List Int) = [] ∧
    (∀ d : Int, identify_periods [d] = [{ start := d, end_ := d, duration := 1 }]) ∧
    (∀ d : Int, identify_periods [d, d + 2] = [{ start := d, end_ := d + 2, duration := 2 }]) ∧
    (∀ d : Int, identify_periods [d, d + 3] =
      [{ start := d, end_ := d, duration := 1 },
       { start := d + 3, end_ := d + 3, duration := 1 }]) := by
  refine ⟨rfl, fun d => rfl, ?_, ?_⟩
  · intro d
    have hsort : List.insertionSort (· ≤ ·) [d, d + 2] = [d, d + 2] := by
      show List.orderedInsert (· ≤ ·) d (List.orderedInsert (· ≤ ·) (d + 2) []) = [d, d + 2]
      simp only [List.orderedInsert]
      rw [if_pos (show d ≤ d + 2 by omega)]
    rw [identify_periods, hsort]
    show identifyAux [d + 2] d [d] = _
    rw [identifyAux, if_neg (show ¬ 2 < d + 2 - d by omega)]
    show [mkPeriod [d, d + 2]] = _
    simp only [mkPeriod, listMin, listMax, List.foldl_cons, List.foldl_nil]
    rw [min_eq_left (show d ≤ d + 2 by omega), max_eq_right (show d ≤ d + 2 by omega)]
    rfl
  · intro d
    have hsort : List.insertionSort (· ≤ ·) [d, d + 3] = [d, d + 3] := by
      show List.orderedInsert (· ≤ ·) d (List.orderedInsert (· ≤ ·) (d + 3) []) = [d, d + 3]
      simp only [List.orderedInsert]
      rw [if_pos (show d ≤ d + 3 by omega)]
    rw [identify_periods, hsort]
    show identifyAux [d + 3] d [d] = _
    rw [identifyAux, if_pos (show 2 < d + 3 - d by omega)]
    rfl

/-- C5: the Calculator returns exactly `len(periods) - 1` records (empty for
fewer than 2 periods), in input order: the `i`-th record is built from the
`i`-th and `(i+1)`-th periods and its cycle length is the difference of their
start dates. -/
theorem calculate_cycle_phases_pairs (periods : List Period) :
    (calculate_cycle_phases periods).length = periods.length - 1 ∧
    (periods.length < 2 → calculate_cycle_phases periods = []) ∧
    ∀ i, i + 1 < periods.length →
      ((calculate_cycle_phases periods).getD i default).cycle_number = i + 1 ∧
      ((calculate_cycle_phases periods).getD i default).period_start
          = (periods.getD i default).start ∧
      ((calculate_cycle_phases periods).getD i default).next_period_date
          = (periods.getD (i + 1) default).start ∧
      ((calculate_cycle_phases periods).getD i default).cycle_length
          = (periods.getD (i + 1) default).start - (periods.getD i default).start := by
  have hlen : (calculate_cycle_phases periods).length = periods.length - 1 := by
    simp [calculate_cycle_phases]
  refine ⟨hlen, ?_, ?_⟩
  · intro h
    exact List.length_eq_zero.mp (by omega)
  · intro i hi
    simp only [calculate_cycle_phases, List.getD_eq_getElem?_getD, List.getElem?_map,
      List.getElem?_range (show i < periods.length - 1 by omega), Option.map_some',
      Option.getD_some]
    exact ⟨trivial, trivial, trivial, trivial⟩

/-- Witness for C5 at a concrete two-period list. -/
theorem calculate_cycle_phases_pairs_witness :
    (0 + 1 < ([⟨0, 1, 2⟩, ⟨10, 11, 2⟩] : List Period).length) ∧
    ((calculate_cycle_phases [⟨0, 1, 2⟩, ⟨10, 11, 2⟩]).getD 0 default).cycle_length
      = (([⟨0, 1, 2⟩, ⟨10, 11, 2⟩] : List Period).getD 1 default).start
        - (([⟨0, 1, 2⟩, ⟨10, 11, 2⟩] : List Period).getD 0 default).start :=
  ⟨by decide, ((calculate_cycle_phases_pairs [⟨0, 1, 2⟩, ⟨10, 11, 2⟩]).2.2 0 (by decide)).2.2.2⟩

/-- C6: every record produced by the Calculator has
`ovulation_date = next_period_date - 14`, fertile window from
`ovulation_date - 5` to `ovulation_date + 1`, and
`pms_alert_date = next_period_date - 7`. -/
theorem cycle_phase_marker_offsets (periods : List Period) :
    ∀ cp ∈ calculate_cycle_phases periods,
      cp.ovulation_date = cp.next_period_date - 14 ∧
      cp.fertile_window_start = cp.ovulation_date - 5 ∧
      cp.fertile_window_end = cp.ovulation_date + 1 ∧
      cp.pms_alert_date = cp.next_period_date - 7 := by
  intro cp hcp
  simp only [calculate_cycle_phases, List.mem_map, List.mem_range] at hcp
  obtain ⟨i, -, rfl⟩ := hcp
  exact ⟨rfl, rfl, rfl, rfl⟩

/-- Witness for C6 at a concrete phase of the two-period history. -/
theorem cycle_phase_marker_offsets_witness :
    ((⟨1, 0, 1, 2, 10, -4, -9, -3, 3, 10⟩ : CyclePhase)
        ∈ calculate_cycle_phases [⟨0, 1, 2⟩, ⟨10, 11, 2⟩]) ∧
    (-4 : Int) = 10 - 14 := by
  have hmem : (⟨1, 0, 1, 2, 10, -4, -9, -3, 3, 10⟩ : CyclePhase)
      ∈ calculate_cycle_phases [⟨0, 1, 2⟩, ⟨10, 11, 2⟩] := by decide
  exact ⟨hmem, (cycle_phase_marker_offsets _ _ hmem).1⟩

/-- C8: with 0 or 1 periods the Calculator returns no phases, the Summary
Reporter reports "no data" (`none`) without raising, and the calendar
generator emits no events and performs no forecast computation. -/
theorem insufficient_history_degrades (today : Int) (m : Nat) (periods : List Period)
    (h : periods.length ≤ 1) :
    print_summary (calculate_cycle_phases periods) = none ∧
    generate_ical_calendar today (calculate_cycle_phases periods) m = Except.ok [] := by
  have hnil : calculate_cycle_phases periods = [] := by
    have hlen : (calculate_cycle_phases periods).length = periods.length - 1 := by
      simp [calculate_cycle_phases]
    exact List.length_eq_zero.mp (by omega)
  rw [hnil]
  exact ⟨rfl, rfl⟩

/-- Witness for C8 at a single period. -/
theorem insufficient_history_degrades_witness :
    (([⟨0, 1, 2⟩] : List Period).length ≤ 1) ∧
    print_summary (calculate_cycle_phases [⟨0, 1, 2⟩]) = none ∧
    generate_ical_calendar 0 (calculate_cycle_phases [⟨0, 1, 2⟩]) 6 = Except.ok [] :=
  ⟨by decide, (insufficient_history_degrades 0 6 [⟨0, 1, 2⟩] (by decide)).1,
   (insufficient_history_degrades 0 6 [⟨0, 1, 2⟩] (by decide)).2⟩
